import Mathlib

/-!
Shallow embedding of `src/main.py` (a Telegram catalog bot).

Python strings are modelled as `List Char` (a Python 3 string is a sequence of
Unicode code points, which matches `List Char` exactly).  The character
classification tables (`pyIsSpace`, `isWordChar`) and the case-folding table
(`pyLower`) are faithful to Python's `str.lower`, `str.split`/`str.strip`
whitespace and `re`'s Unicode `\w`/`\s` on the Basic Latin and Latin-1 ranges
(U+0000..U+00FF), which covers the program's Portuguese keyword tables and
catalog data; code points above U+00FF are conservatively treated as
case-fixed word characters.

The fuzzy scorer used by `find_product` (`rapidfuzz.process.extract` with
`scorer=fuzz.WRatio, limit=5`) is third-party library code; it is modelled
here over exact rationals (`ℚ`) following rapidfuzz's published pure-Python
reference implementation (`fuzz_py.py`): `fuzz.ratio` is the normalized Indel
similarity `200·lcs/(|a|+|b|)`, and `fuzz.WRatio` combines it with
token-sort/token-set and best-window ("partial") variants under the 0.95 /
0.9 / 0.6 weights.  Scores are exact rationals rather than IEEE doubles; all
thresholds in the program (75, 5, 1.5, 8) are exactly representable.
-/

/-- A Python string: a list of Unicode code points. -/
abbrev PyStr := List Char

/-- Coerce a Lean string literal to the `PyStr` model. -/
def py (s : String) : PyStr := s.data

/-- Python whitespace (`str.split`/`str.strip`/regex `\s`) on the modelled
range: ASCII whitespace, the C1 NEL (U+0085) and NBSP (U+00A0). -/
def pyIsSpace (c : Char) : Bool :=
  decide (c = ' ' ∨ c = '\t' ∨ c = '\n' ∨ c.toNat = 0x0B ∨ c.toNat = 0x0C ∨
    c = '\r' ∨ (0x1C ≤ c.toNat ∧ c.toNat ≤ 0x1F) ∨ c.toNat = 0x85 ∨ c.toNat = 0xA0)

/-- Python regex `\w` (word character) on the modelled range: ASCII
alphanumerics and underscore, plus the Latin-1 letters and numeric signs;
code points above U+00FF are treated as word characters. -/
def isWordChar (c : Char) : Bool :=
  decide (('a' ≤ c ∧ c ≤ 'z') ∨ ('A' ≤ c ∧ c ≤ 'Z') ∨ ('0' ≤ c ∧ c ≤ '9') ∨ c = '_' ∨
    c.toNat = 0xAA ∨ c.toNat = 0xB5 ∨ c.toNat = 0xBA ∨
    c.toNat = 0xB2 ∨ c.toNat = 0xB3 ∨ c.toNat = 0xB9 ∨
    (0xBC ≤ c.toNat ∧ c.toNat ≤ 0xBE) ∨
    (0xC0 ≤ c.toNat ∧ c.toNat ≤ 0xFF ∧ c.toNat ≠ 0xD7 ∧ c.toNat ≠ 0xF7) ∨
    0x100 ≤ c.toNat)

/-- The uppercase → lowercase pairs of `str.lower` on the modelled range:
ASCII `A`-`Z` and the Latin-1 uppercase letters `À`-`Þ` (U+00D7 `×` is not a
letter; `ß`, `ÿ` and all lowercase letters are already fixed). -/
def lowerPairs : List (Char × Char) :=
  [('A','a'),('B','b'),('C','c'),('D','d'),('E','e'),('F','f'),('G','g'),
   ('H','h'),('I','i'),('J','j'),('K','k'),('L','l'),('M','m'),('N','n'),
   ('O','o'),('P','p'),('Q','q'),('R','r'),('S','s'),('T','t'),('U','u'),
   ('V','v'),('W','w'),('X','x'),('Y','y'),('Z','z'),
   ('À','à'),('Á','á'),('Â','â'),('Ã','ã'),('Ä','ä'),('Å','å'),('Æ','æ'),
   ('Ç','ç'),('È','è'),('É','é'),('Ê','ê'),('Ë','ë'),('Ì','ì'),('Í','í'),
   ('Î','î'),('Ï','ï'),('Ð','ð'),('Ñ','ñ'),('Ò','ò'),('Ó','ó'),('Ô','ô'),
   ('Õ','õ'),('Ö','ö'),('Ø','ø'),('Ù','ù'),('Ú','ú'),('Û','û'),('Ü','ü'),
   ('Ý','ý'),('Þ','þ')]

/-- Python `str.lower` on a single character (modelled range). -/
def pyLower (c : Char) : Char :=
  ((lowerPairs.find? (fun p => p.1 == c)).map Prod.snd).getD c

/-- Python `str.strip()`: remove leading and trailing Python whitespace. -/
def pyStrip (s : PyStr) : PyStr :=
  ((s.dropWhile pyIsSpace).reverse.dropWhile pyIsSpace).reverse

/-- A character kept (unreplaced) by `re.sub(r"[^\w\s|]", " ", s)`. -/
def keepChar (c : Char) : Bool := isWordChar c || pyIsSpace c || c = '|'

/-- One character of `re.sub(r"[^\w\s|]", " ", s)`. -/
def subChar (c : Char) : Char := if keepChar c then c else ' '

/-- Python `re.sub(r"[^\w\s|]", " ", s)`: replace every character that is not a word
character, whitespace, or `|` by a single space. -/
def subPunct (s : PyStr) : PyStr := s.map subChar

/-- Worker for `re.sub(r"\s+", " ", s)`: the flag records whether the
previous character was whitespace (so the current run is already emitted). -/
def collapseAux : Bool → PyStr → PyStr
  | _, [] => []
  | prevSpace, c :: cs =>
    if pyIsSpace c then
      if prevSpace then collapseAux true cs else ' ' :: collapseAux true cs
    else c :: collapseAux false cs

/-- Python `re.sub(r"\s+", " ", s)`: replace each maximal whitespace run by one space. -/
def collapseWs (s : PyStr) : PyStr := collapseAux false s

/-- Models `normalize_text` from `src/main.py` lines 18-22:
`s.lower().strip()`, then `re.sub(r"[^\w\s|]", " ", s)`, then
`re.sub(r"\s+", " ", s)`. -/
def normalize_text (s : PyStr) : PyStr :=
  collapseWs (subPunct (pyStrip (s.map pyLower)))

/-- Python `pat in s` prefix test: `pat` occurs as a contiguous substring. -/
def isPreOf : PyStr → PyStr → Bool
  | [], _ => true
  | _ :: _, [] => false
  | p :: ps, c :: cs => p == c && isPreOf ps cs

/-- Python `pat in s` (substring containment). -/
def inPy (pat : PyStr) : PyStr → Bool
  | [] => isPreOf pat []
  | c :: cs => isPreOf pat (c :: cs) || inPy pat cs

/-- Worker for Python `str.split()`; `acc` is the reversed current token. -/
def splitWsAux : PyStr → PyStr → List PyStr
  | [], acc => if acc = [] then [] else [acc.reverse]
  | c :: cs, acc =>
    if pyIsSpace c then
      if acc = [] then splitWsAux cs [] else acc.reverse :: splitWsAux cs []
    else splitWsAux cs (c :: acc)

/-- Python `str.split()`: split on whitespace runs, dropping empty tokens. -/
def splitWs (s : PyStr) : List PyStr := splitWsAux s []

/-- Python `" ".join(xs)`. -/
def joinSp (xs : List PyStr) : PyStr := List.intercalate (py " ") xs

/-- Python `"\n".join(xs)`. -/
def joinNl (xs : List PyStr) : PyStr := List.intercalate (py "\n") xs

/-- Python `<=` on strings: lexicographic comparison by code point. -/
def pyStrLe : PyStr → PyStr → Bool
  | [], _ => true
  | _ :: _, [] => false
  | a :: as, b :: bs =>
    if a.toNat < b.toNat then true
    else if b.toNat < a.toNat then false
    else pyStrLe as bs

/-- Insert into a `pyStrLe`-sorted list (for Python `sorted`). -/
def insertStr (x : PyStr) : List PyStr → List PyStr
  | [] => [x]
  | y :: ys => if pyStrLe x y then x :: y :: ys else y :: insertStr x ys

/-- Python `sorted` on a list of strings (code-point lexicographic order;
stability is irrelevant because ties are identical strings). -/
def sortStrs (xs : List PyStr) : List PyStr := xs.foldr insertStr []

/-- Length of a longest common subsequence of two strings. -/
def lcs : PyStr → PyStr → Nat
  | [], _ => 0
  | _ :: _, [] => 0
  | a :: as, b :: bs =>
    if a = b then lcs as bs + 1
    else max (lcs as (b :: bs)) (lcs (a :: as) bs)
termination_by a b => a.length + b.length

/-- The Indel distance (insertions and deletions only):
`|a| + |b| - 2·lcs(a,b)`. -/
def indelDist (a b : PyStr) : Nat := a.length + b.length - 2 * lcs a b

/-- Models `rapidfuzz.fuzz.ratio`: the normalized Indel similarity on a
0-100 scale, `200·lcs/(|a|+|b|)` (and 100 when both strings are empty). -/
def simQ (a b : PyStr) : ℚ :=
  if a = [] ∧ b = [] then 100
  else (200 * (lcs a b : ℚ)) / ((a.length : ℚ) + (b.length : ℚ))

/-- Maximum of a list of scores (0 when empty). -/
def maxQ (l : List ℚ) : ℚ := l.foldr max 0

/-- Models rapidfuzz's `_partial_ratio_short_needle` loop: the best
`fuzz.ratio` of the needle `s1` against aligned windows of `s2` (growing
prefixes, all full-length windows, shrinking suffixes), where an alignment
is only scored when its boundary character occurs in the needle.  Callers
pass the shorter string as `s1`. -/
def windowScore (s1 s2 : PyStr) : ℚ :=
  if s1 = [] then 0
  else
    let l1 := s1.length
    let l2 := s2.length
    let pre := (List.range' 1 (l1 - 1)).filterMap (fun i =>
      if s1.contains (s2.getD (i - 1) ' ') then some (simQ s1 (s2.take i)) else none)
    let mid := (List.range (l2 - l1 + 1)).filterMap (fun i =>
      if s1.contains (s2.getD (i + l1 - 1) ' ') then some (simQ s1 ((s2.drop i).take l1))
      else none)
    let suf := (List.range' (l2 - l1 + 1) (l1 - 1)).filterMap (fun i =>
      if s1.contains (s2.getD i ' ') then some (simQ s1 (s2.drop i)) else none)
    maxQ (pre ++ mid ++ suf)

/-- Models `rapidfuzz.fuzz.partial_ratio`: the shorter string is the needle;
for equal lengths both directions are tried. -/
def windowSim (s1 s2 : PyStr) : ℚ :=
  if s1.length ≤ s2.length then
    if s1.length = s2.length then max (windowScore s1 s2) (windowScore s2 s1)
    else windowScore s1 s2
  else windowScore s2 s1

/-- Models `rapidfuzz.fuzz.token_sort_ratio`:
`ratio(" ".join(sorted(s1.split())), " ".join(sorted(s2.split())))`. -/
def tokenSortSim (s1 s2 : PyStr) : ℚ :=
  simQ (joinSp (sortStrs (splitWs s1))) (joinSp (sortStrs (splitWs s2)))

/-- The final combination of `rapidfuzz.fuzz.token_set_ratio`: the Indel
score of the two difference sentences over their `sect`-prefixed lengths,
against the length-only scores of the common-token sentence `sect` versus
each `sect + diff` sentence. -/
def setScore (sectLen abLen baLen dist bonus : ℚ) : ℚ :=
  let sectAbLen := sectLen + bonus + abLen
  let sectBaLen := sectLen + bonus + baLen
  100 * max (1 - dist / (sectAbLen + sectBaLen))
    (max (1 - (bonus + abLen) / (sectLen + sectAbLen))
      (1 - (bonus + baLen) / (sectLen + sectBaLen)))

/-- Models `rapidfuzz.fuzz.token_set_ratio`: compare the sorted token-set
difference strings, plus the length-only scores of the common-token sentence
against each full sentence. -/
def tokenSetSim (s1 s2 : PyStr) : ℚ :=
  let A := (splitWs s1).dedup
  let B := (splitWs s2).dedup
  if A = [] ∨ B = [] then 0
  else
    let sect := A.filter (fun t => B.contains t)
    let dab := A.filter (fun t => !(B.contains t))
    let dba := B.filter (fun t => !(A.contains t))
    if sect ≠ [] ∧ (dab = [] ∨ dba = []) then 100
    else
      let dabJ := joinSp (sortStrs dab)
      let dbaJ := joinSp (sortStrs dba)
      setScore ((joinSp sect).length : ℚ) (dabJ.length : ℚ) (dbaJ.length : ℚ)
        (indelDist dabJ dbaJ : ℚ) (if sect = [] then 0 else 1)

/-- Models `rapidfuzz.fuzz.token_ratio`: the maximum of the token-sort and
token-set scores. -/
def tokenSim (s1 s2 : PyStr) : ℚ := max (tokenSortSim s1 s2) (tokenSetSim s1 s2)

/-- Models `rapidfuzz.fuzz.partial_token_ratio`: 100 when the token sets
intersect; otherwise the best window score of the sorted-token sentences
(also of the distinct-token sentences when both sides have duplicates). -/
def windowTokenSim (s1 s2 : PyStr) : ℚ :=
  let ta := splitWs s1
  let tb := splitWs s2
  let sa := ta.dedup
  let sb := tb.dedup
  if sa.any (fun t => sb.contains t) then 100
  else
    let base := windowSim (joinSp (sortStrs ta)) (joinSp (sortStrs tb))
    let dab := sa.filter (fun t => !(sb.contains t))
    let dba := sb.filter (fun t => !(sa.contains t))
    if ta.length ≠ dab.length ∧ tb.length ≠ dba.length then
      max base (windowSim (joinSp (sortStrs dab)) (joinSp (sortStrs dba)))
    else base

/-- Models `rapidfuzz.fuzz.WRatio`, the scorer used at `src/main.py` line
105: for similar lengths (`max/min < 1.5`) the base ratio against the
token scores weighted by 0.95; otherwise against the window ("partial")
scores weighted by 0.9 (length ratio < 8) or 0.6. -/
def wSim (s1 s2 : PyStr) : ℚ :=
  if s1 = [] ∨ s2 = [] then 0
  else
    let l1 : ℚ := s1.length
    let l2 : ℚ := s2.length
    let lenR := max l1 l2 / min l1 l2
    let base := simQ s1 s2
    if lenR < 3 / 2 then
      max base (tokenSim s1 s2 * (19 / 20))
    else
      let pScale : ℚ := if lenR < 8 then 9 / 10 else 3 / 5
      max (max base (windowSim s1 s2 * pScale))
        (windowTokenSim s1 s2 * (19 / 20) * pScale)

/-- One catalog row (`pandas` row of the catalog DataFrame), with every
expected column coerced to a string and the derived `__search` field. -/
structure Row where
  nome_popular : PyStr
  preco : PyStr
  estoque : PyStr
  vaso : PyStr
  luz : PyStr
  rega : PyStr
  pets : PyStr
  observacoes : PyStr
  apelidos : PyStr
  search : PyStr
deriving DecidableEq

/-- A raw catalog row as parsed from the CSV (before the `__search` field
is computed at `src/main.py` lines 52-54). -/
structure RawRow where
  nome_popular : PyStr
  preco : PyStr
  estoque : PyStr
  vaso : PyStr
  luz : PyStr
  rega : PyStr
  pets : PyStr
  observacoes : PyStr
  apelidos : PyStr
deriving DecidableEq

/-- Lines 52-54 of `src/main.py`: `__search = normalize_text(nome_popular +
" | " + apelidos)`. -/
def buildRow (r : RawRow) : Row :=
  { nome_popular := r.nome_popular, preco := r.preco, estoque := r.estoque,
    vaso := r.vaso, luz := r.luz, rega := r.rega, pets := r.pets,
    observacoes := r.observacoes, apelidos := r.apelidos,
    search := normalize_text (r.nome_popular ++ py " | " ++ r.apelidos) }

/-- Line 95 of `src/main.py`: the rows whose normalized name starts with the
(already normalized) query, in catalog order. -/
def startsRows (df : List Row) (q : PyStr) : List Row :=
  df.filter (fun r => isPreOf q (normalize_text r.nome_popular))

/-- Pair each row with its index and its `WRatio` score against the query,
mirroring the enumeration done by `rapidfuzz.process.extract` over
`df["__search"].tolist()`. -/
def scoreRows (q : PyStr) : List Row → Nat → List (Nat × Row × ℚ)
  | [], _ => []
  | r :: rs, i => (i, r, wSim q r.search) :: scoreRows q rs (i + 1)

/-- Relation: `a` precedes `b` in the extract output: higher score first, ties by
catalog index (`heapq.nlargest` keeps the original order among ties). -/
def scoreRel (a b : Nat × Row × ℚ) : Prop :=
  b.2.2 < a.2.2 ∨ (a.2.2 = b.2.2 ∧ a.1 ≤ b.1)

instance : DecidableRel scoreRel := fun a b => by
  unfold scoreRel; infer_instance

instance : IsTotal (Nat × Row × ℚ) scoreRel :=
  ⟨fun a b => by
    rcases lt_trichotomy a.2.2 b.2.2 with h | h | h
    · exact Or.inr (Or.inl h)
    · rcases Nat.le_total a.1 b.1 with h2 | h2
      · exact Or.inl (Or.inr ⟨h.symm ▸ rfl, h2⟩)
      · exact Or.inr (Or.inr ⟨h.symm, h2⟩)
    · exact Or.inl (Or.inl h)⟩

instance : IsTrans (Nat × Row × ℚ) scoreRel :=
  ⟨fun a b c hab hbc => by
    rcases hab with h1 | ⟨e1, i1⟩ <;> rcases hbc with h2 | ⟨e2, i2⟩
    · exact Or.inl (h2.trans h1)
    · exact Or.inl (e2 ▸ h1)
    · exact Or.inl (h2.trans_eq e1.symm)
    · exact Or.inr ⟨e1.trans e2, i1.trans i2⟩⟩

/-- Lines 104-105 of `src/main.py`: `process.extract(q, choices,
scorer=fuzz.WRatio, limit=5)` followed by the `df.iloc[idx]` lookup of line
107 — score every row, order by descending score (ties by catalog order),
and keep the first 5. -/
def extractTop (q : PyStr) (df : List Row) : List (Row × ℚ) :=
  ((List.insertionSort scoreRel (scoreRows q df 0)).take 5).map
    (fun t => (t.2.1, t.2.2))

/-- Line 107 of `src/main.py`: the extracted candidates with score ≥ 75. -/
def fuzzyTop (df : List Row) (q : PyStr) : List (Row × ℚ) :=
  (extractTop q df).filter (fun t => (75 : ℚ) ≤ t.2)

/-- Models `find_product` from `src/main.py` lines 89-115: empty normalized query
→ `(None, [])`; exactly one name-prefix row → that row at score 100; two or
more prefix rows → `(None, …)` each at score 90 in catalog order; otherwise
the `WRatio` fallback over `__search` (top 5, threshold 75). -/
def find_product (df : List Row) (query : PyStr) : Option Row × List (Row × ℚ) :=
  if normalize_text query = [] then (none, [])
  else
    match startsRows df (normalize_text query) with
    | [r] => (some r, [(r, (100 : ℚ))])
    | [] =>
      (match fuzzyTop df (normalize_text query) with
       | [t] => (some t.1, [t])
       | [] => (none, [])
       | ts => (none, ts))
    | rs => (none, rs.map (fun r => (r, (90 : ℚ))))

/-- The fuzzy stage of `find_product` (`src/main.py` lines 103-115) as a
standalone function, for stating that the resolver reaches it directly when
the prefix stage selects no rows. -/
def fuzzyResolve (df : List Row) (q : PyStr) : Option Row × List (Row × ℚ) :=
  match fuzzyTop df q with
  | [t] => (some t.1, [t])
  | [] => (none, [])
  | ts => (none, ts)

/-- Modelled from the spec (§4.5 stage 3); `src/main.py` contains no such
stage: the rows matched by the claimed token-subset stage — every
whitespace token of the normalized query, after stripping one trailing
`s`, occurs as a substring of the row's normalized name. -/
def tokenSubsetMatches (df : List Row) (q : PyStr) : List Row :=
  df.filter (fun r =>
    (splitWs q).all (fun t =>
      inPy (if t.getLast? = some 's' then t.dropLast else t)
        (normalize_text r.nome_popular)))

/-- The intent labels returned by `detect_intent` (`src/main.py` 61-73). -/
inductive Intent where
  | PRICE | STOCK | CARE | SUGGEST | GENERAL
deriving DecidableEq

/-- Models `detect_intent` from `src/main.py` lines 61-73: ordered substring
keyword cascade over the normalized message. -/
def detect_intent (msg : PyStr) : Intent :=
  let m := normalize_text msg
  if [py "quanto", py "preço", py "preco", py "valor",
      py "custa"].any (fun k => inPy k m) then Intent.PRICE
  else if [py "tem", py "estoque", py "disponivel",
      py "disponível"].any (fun k => inPy k m) then Intent.STOCK
  else if [py "como cuidar", py "cuidados", py "rega", py "luz", py "sol",
      py "sombra", py "adubo"].any (fun k => inPy k m) then Intent.CARE
  else if [py "me indica", py "me sugere", py "sugere", py "recomenda",
      py "pra", py "para"].any (fun k => inPy k m) then Intent.SUGGEST
  else Intent.GENERAL

/-- The stop-word list of `extract_query` (`src/main.py` lines 79-84). -/
def stopWords : List PyStr :=
  [py "quanto", py "preco", py "preço", py "valor", py "custa", py "ta", py "tá",
   py "tem", py "estoque", py "disponivel", py "disponível",
   py "como", py "cuidar", py "cuidados", py "me", py "indica", py "sugere",
   py "recomenda", py "uma", py "um", py "de", py "da", py "do", py "pra",
   py "para", py "no", py "na"]

/-- Models `extract_query` from `src/main.py` lines 76-86: drop stop-word tokens
from the normalized message of the user and rejoin. -/
def extract_query (msg : PyStr) : PyStr :=
  let m := normalize_text msg
  pyStrip (joinSp ((splitWs m).filter (fun t => !(stopWords.contains t))))

/-- The intent-gated detail lines of `format_product_answer`
(`src/main.py` lines 130-145), in emission order. -/
def answerLines (prod : Row) (intent : Intent) : List PyStr :=
  let preco := pyStrip prod.preco
  let estoque := pyStrip prod.estoque
  let vaso := pyStrip prod.vaso
  let luz := pyStrip prod.luz
  let rega := pyStrip prod.rega
  let pets := pyStrip prod.pets
  (if (intent = Intent.PRICE ∨ intent = Intent.GENERAL) ∧ preco ≠ [] then
     [py "💰 **Preço:** " ++ preco] else [])
  ++ (if (intent = Intent.PRICE ∨ intent = Intent.GENERAL) ∧ vaso ≠ [] then
     [py "🪴 **Vaso:** " ++ vaso] else [])
  ++ (if (intent = Intent.STOCK ∨ intent = Intent.GENERAL) ∧ estoque ≠ [] then
     [py "📦 **Estoque:** " ++ estoque] else [])
  ++ (if (intent = Intent.CARE ∨ intent = Intent.GENERAL) ∧ luz ≠ [] then
     [py "☀️ **Luz:** " ++ luz] else [])
  ++ (if (intent = Intent.CARE ∨ intent = Intent.GENERAL) ∧ rega ≠ [] then
     [py "💧 **Rega:** " ++ rega] else [])
  ++ (if (intent = Intent.CARE ∨ intent = Intent.GENERAL) ∧ pets ≠ [] then
     [py "🐾 **Pets:** " ++ pets] else [])

/-- Models `format_product_answer` from `src/main.py` lines 117-161: header, the
intent-gated lines, the optional customer phrase, the optional notes, and
the closing suggestion. -/
def format_product_answer (prod : Row) (intent : Intent) : PyStr :=
  let nome := pyStrip prod.nome_popular
  let luz := pyStrip prod.luz
  let rega := pyStrip prod.rega
  let obs := pyStrip prod.observacoes
  let head := py "Beleza 🙂 Achei aqui no catálogo:\n\n🌿 **" ++ nome ++ py "**"
  let lines := answerLines prod intent
  let frase :=
    if luz ≠ [] ∨ rega ≠ [] then
      py "🗣️ *Frase pro cliente:* \"" ++ nome ++ py " prefere " ++
        (if luz ≠ [] then luz else py "boa claridade") ++ py " e rega " ++
        (if rega ≠ [] then rega else py "moderada") ++ py ".\""
    else []
  let extra :=
    if obs ≠ [] ∧ intent ≠ Intent.PRICE then py "\n📝 **Obs.:** " ++ obs else []
  let response := head ++ py "\n" ++ joinNl lines
  let response := if frase ≠ [] then response ++ py "\n\n" ++ frase else response
  response ++ extra ++ py "\n\nSe quiser, posso sugerir **parecidas** ou **pet friendly** 😉"

/-- The no-match reply of `handle_message` (`src/main.py` lines 214-220). -/
def noMatchText : PyStr :=
  py "Não achei esse item no catálogo 😕\nVocê pode tentar:\n• outro nome (apelido)\n• escrever só a 1ª palavra\n• ou me mandar uma foto/nome certinho"

/-- The disambiguation reply of `handle_message` (`src/main.py` lines
225-228), listing the first 3 candidates. -/
def disambigText (top : List (Row × ℚ)) : PyStr :=
  py "Achei mais de uma parecida 👀 Qual delas você quis dizer?\n\n" ++
    joinNl ((top.take 3).map (fun t => py "• " ++ t.1.nome_popular))

/-- The empty-suggestion reply (`src/main.py` lines 195-198). -/
def suggestEmptyText : PyStr :=
  py "Entendi 🙂 Mas não encontrei sugestão certeira com esses filtros no catálogo.\nMe diga: é pra **sol**, **meia-sombra** ou **pouca luz**?"

/-- The suggestion reply (`src/main.py` lines 201-207). -/
def suggestText (subset : List Row) : PyStr :=
  py "Pera aí que já te passo 3 boas opções 👀\n\n" ++
    joinNl (subset.map (fun r => py "• 🌿 " ++ r.nome_popular ++ py " — " ++ r.preco)) ++
    py "\n\nQuer que eu filtre por **pet friendly**?"

/-- Pandas `str.contains("sombra|indireta|pouca", case=False)` on the `luz`
column (`src/main.py` line 187). -/
def luzShadeFilter (r : Row) : Bool :=
  inPy (py "sombra") (r.luz.map pyLower) || inPy (py "indireta") (r.luz.map pyLower) ||
    inPy (py "pouca") (r.luz.map pyLower)

/-- Pandas `str.contains("sol", case=False)` on the `luz` column (line 189). -/
def luzSolFilter (r : Row) : Bool := inPy (py "sol") (r.luz.map pyLower)

/-- Pandas `str.contains("ok|sim|não tóx", case=False)` on the `pets` column
(line 191). -/
def petsFilter (r : Row) : Bool :=
  inPy (py "ok") (r.pets.map pyLower) || inPy (py "sim") (r.pets.map pyLower) ||
    inPy (py "não tóx") (r.pets.map pyLower)

/-- The Python errors the handler can raise in the model. -/
inductive PyErr where
  | nameError
deriving DecidableEq

/-- The body of `handle_message` after the debug block — `src/main.py`
lines 171-232, taking the already-loaded catalog: empty message → no reply;
SUGGEST branch with its three substring filters; otherwise resolve and
answer (no-match text when `prod is None`, the disambiguation prompt when
the top-2 gap is < 5, else the formatted answer).  Returns the reply sent,
if any. -/
def handle_message_body (msg : PyStr) (df : List Row) : Option PyStr :=
  if msg = [] then none
  else
    let intent := detect_intent msg
    let query := extract_query msg
    if intent = Intent.SUGGEST then
      let m := normalize_text msg
      let subset := df
      let subset :=
        if inPy (py "pouca luz") m || inPy (py "sombra") m then
          subset.filter luzShadeFilter
        else subset
      let subset := if inPy (py "sol") m then subset.filter luzSolFilter else subset
      let subset := if inPy (py "pet") m then subset.filter petsFilter else subset
      let subset := subset.take 3
      if subset = [] then some suggestEmptyText
      else some (suggestText subset)
    else
      match find_product df query with
      | (none, _) => some noMatchText
      | (some prod, top) =>
        match top with
        | t0 :: t1 :: _ =>
          if t0.2 - t1.2 < 5 then some (disambigText top)
          else some (format_product_answer prod intent)
        | _ => some (format_product_answer prod intent)

/-- Line 166 of `src/main.py`: the debug `print` dereferences the local
variable `query` (and then `df`) before either is assigned, so evaluating
it raises `NameError`. -/
def debugBlock : Except PyErr Unit := Except.error PyErr.nameError

/-- Models `handle_message` from `src/main.py` lines 164-232: the debug block at
lines 166-169 runs first and raises `NameError`; only if it succeeded would
the body run. -/
def handle_message (msg : PyStr) (df : List Row) : Except PyErr (Option PyStr) := do
  debugBlock
  pure (handle_message_body msg df)

/-- The process-wide catalog cache `CATALOG_CACHE` (`src/main.py` line
14): the cached rows (if any) and the timestamp of the last load. -/
structure CacheState where
  df : Option (List Row)
  ts : ℚ
deriving DecidableEq

/-- Errors `load_catalog` can raise: missing `SHEETS_CSV_URL`, or a failed
HTTP fetch (`requests.get` / `raise_for_status`). -/
inductive LoadErr where
  | noUrl
  | fetchFailed
deriving DecidableEq

/-- Outcome of the HTTP fetch and CSV parse of the catalog. -/
inductive FetchOutcome where
  | ok (rows : List RawRow)
  | failed
deriving DecidableEq

/-- The fetch path of `load_catalog` (`src/main.py` lines 31-58): fail if
the URL is unconfigured; propagate a fetch failure (leaving the cache
untouched); otherwise build the rows and replace the cache wholesale. -/
def fetchCatalog (url : PyStr) (fetch : FetchOutcome) (now : ℚ) (st : CacheState) :
    Except LoadErr (List Row) × CacheState :=
  if url = [] then (Except.error LoadErr.noUrl, st)
  else
    match fetch with
    | FetchOutcome.failed => (Except.error LoadErr.fetchFailed, st)
    | FetchOutcome.ok rows =>
      let df := rows.map buildRow
      (Except.ok df, { df := some df, ts := now })

/-- Models `load_catalog` from `src/main.py` lines 25-58: serve the cached catalog
when one exists and is younger than `CACHE_TTL_SECONDS = 60`; otherwise
take the fetch path.  The fetch outcome and the current time are explicit
parameters; the function returns the served catalog (or the raised error)
together with the cache state after the call. -/
def load_catalog (url : PyStr) (fetch : FetchOutcome) (now : ℚ) (st : CacheState) :
    Except LoadErr (List Row) × CacheState :=
  match st.df with
  | some df =>
    if now - st.ts < 60 then (Except.ok df, st)
    else fetchCatalog url fetch now st
  | none => fetchCatalog url fetch now st

/-- A raw row with only a name (all other CSV fields empty). -/
def rawNamed (nome : String) : RawRow :=
  ⟨py nome, [], [], [], [], [], [], [], []⟩

/-- Concrete row `Samambaia` (`__search = "samambaia |"`). -/
def rowSamambaia : Row := buildRow (rawNamed "Samambaia")

/-- Concrete row `Suculenta`. -/
def rowSuculenta : Row := buildRow (rawNamed "Suculenta")

/-- Concrete row `Jiboia`. -/
def rowJiboia : Row := buildRow (rawNamed "Jiboia")

/-- Concrete row `Jiboia Verde`. -/
def rowJiboiaVerde : Row := buildRow (rawNamed "Jiboia Verde")

/-- Concrete row `abc`. -/
def rowAbc : Row := buildRow (rawNamed "abc")

/-- One-row catalog used for the token-subset counterexample. -/
def dfSam : List Row := [rowSamambaia]

/-- Two-row catalog from the spec's prefix examples. -/
def dfPlants : List Row := [rowSamambaia, rowSuculenta]

/-- Two-row catalog from the spec's ambiguity examples. -/
def dfJib : List Row := [rowJiboia, rowJiboiaVerde]

/-- One-row catalog used for fuzzy-stage witnesses. -/
def dfAbc : List Row := [rowAbc]

/-- A row whose price field holds the decimal-comma string `12,5`. -/
def rowPrecoComma : Row :=
  buildRow ⟨py "Rosa", py "12,5", [], [], [], [], [], [], []⟩

/-- A row whose price field holds the literal string `nan` (what pandas
stringifies a missing price to). -/
def rowPrecoNan : Row :=
  buildRow ⟨py "Rosa", py "nan", [], [], [], [], [], [], []⟩

/-- A row whose price field is empty. -/
def rowPrecoEmpty : Row :=
  buildRow ⟨py "Rosa", [], [], [], [], [], [], [], []⟩

deriving instance DecidableEq for Except

/-- Two adjacent characters are not both whitespace. -/
def noTwoSp (a b : Char) : Prop := ¬(pyIsSpace a = true ∧ pyIsSpace b = true)

theorem map_eq_self_of_fix {l : PyStr} {f : Char → Char}
    (h : ∀ c ∈ l, f c = c) : l.map f = l := by
  induction l with
  | nil => rfl
  | cons c cs ih =>
    simp only [List.map_cons, h c (List.mem_cons_self c cs)]
    rw [ih (fun x hx => h x (List.mem_cons_of_mem c hx))]

theorem pyLower_idem (c : Char) : pyLower (pyLower c) = pyLower c := by
  cases h : lowerPairs.find? (fun p => p.1 == c) with
  | none =>
    have hc : pyLower c = c := by simp [pyLower, h]
    rw [hc, hc]
  | some p =>
    have hmem : p ∈ lowerPairs := List.mem_of_find?_eq_some h
    have hval : pyLower c = p.2 := by simp [pyLower, h]
    have hF : lowerPairs.all (fun pr => lowerPairs.all (fun q => q.1 != pr.2)) = true := by
      decide
    have hnone : lowerPairs.find? (fun q => q.1 == p.2) = none := by
      rw [List.find?_eq_none]
      intro q hq
      have h1 := (List.all_eq_true.mp hF) p hmem
      have h2 := (List.all_eq_true.mp h1) q hq
      simpa using h2
    rw [hval]
    simp [pyLower, hnone]

theorem mem_collapseAux {u : PyStr} {f : Bool} {c : Char}
    (h : c ∈ collapseAux f u) : c = ' ' ∨ c ∈ u := by
  induction u generalizing f with
  | nil => simp [collapseAux] at h
  | cons a as ih =>
    by_cases ha : pyIsSpace a = true
    · cases f with
      | true =>
        simp only [collapseAux, ha, if_pos, if_true] at h
        rcases ih h with h' | h'
        · exact Or.inl h'
        · exact Or.inr (List.mem_cons_of_mem a h')
      | false =>
        simp only [collapseAux, ha, if_true] at h
        rcases List.mem_cons.mp h with h' | h'
        · exact Or.inl h'
        · rcases ih h' with h'' | h''
          · exact Or.inl h''
          · exact Or.inr (List.mem_cons_of_mem a h'')
    · simp only [collapseAux, ha, if_false, Bool.false_eq_true] at h
      rcases List.mem_cons.mp h with h' | h'
      · exact Or.inr (h' ▸ List.mem_cons_self a as)
      · rcases ih h' with h'' | h''
        · exact Or.inl h''
        · exact Or.inr (List.mem_cons_of_mem a h'')

theorem space_mem_collapseAux {u : PyStr} {f : Bool} {c : Char}
    (h : c ∈ collapseAux f u) (hs : pyIsSpace c = true) : c = ' ' := by
  induction u generalizing f with
  | nil => simp [collapseAux] at h
  | cons a as ih =>
    by_cases ha : pyIsSpace a = true
    · cases f with
      | true =>
        simp only [collapseAux, ha, if_true] at h
        exact ih h
      | false =>
        simp only [collapseAux, ha, if_true] at h
        rcases List.mem_cons.mp h with h' | h'
        · exact h'
        · exact ih h'
    · simp only [collapseAux, ha, Bool.false_eq_true, if_false] at h
      rcases List.mem_cons.mp h with h' | h'
      · rw [h'] at hs; exact absurd hs (by simpa using ha)
      · exact ih h'

theorem head_collapseAux_true {u : PyStr} {c : Char}
    (h : (collapseAux true u).head? = some c) : pyIsSpace c = false := by
  induction u with
  | nil => simp [collapseAux] at h
  | cons a as ih =>
    by_cases ha : pyIsSpace a = true
    · simp only [collapseAux, ha, if_true] at h
      exact ih h
    · simp only [collapseAux, ha, Bool.false_eq_true, if_false, List.head?_cons,
        Option.some.injEq] at h
      rw [← h]
      simpa using ha

theorem chain'_collapseAux (u : PyStr) (f : Bool) :
    List.Chain' noTwoSp (collapseAux f u) := by
  induction u generalizing f with
  | nil => simp [collapseAux]
  | cons a as ih =>
    by_cases ha : pyIsSpace a = true
    · cases f with
      | true => simpa only [collapseAux, ha, if_true] using ih true
      | false =>
        simp only [collapseAux, ha, if_true, Bool.false_eq_true, if_false]
        rw [List.chain'_cons']
        refine ⟨fun b hb => ?_, ih true⟩
        intro ⟨_, hb2⟩
        have := head_collapseAux_true hb
        rw [this] at hb2
        exact Bool.false_ne_true hb2
    · have hrw : collapseAux f (a :: as) = a :: collapseAux false as := by
        cases f <;> simp [collapseAux, ha]
      rw [hrw, List.chain'_cons']
      refine ⟨fun b hb => ?_, ih false⟩
      intro ⟨ha2, _⟩
      exact ha ha2

theorem collapseAux_eq_self (u : PyStr) (hch : List.Chain' noTwoSp u)
    (hsp : ∀ c ∈ u, pyIsSpace c = true → c = ' ') :
    collapseAux false u = u ∧
      ((∀ c, u.head? = some c → pyIsSpace c = false) → collapseAux true u = u) := by
  induction u with
  | nil => simp [collapseAux]
  | cons a as ih =>
    have hch' := (List.chain'_cons'.mp hch).2
    have hhd := (List.chain'_cons'.mp hch).1
    have hsp' : ∀ c ∈ as, pyIsSpace c = true → c = ' ' :=
      fun c hc => hsp c (List.mem_cons_of_mem a hc)
    by_cases ha : pyIsSpace a = true
    · have ha' : a = ' ' := hsp a (List.mem_cons_self a as) ha
      subst ha'
      have htail : collapseAux true as = as := by
        refine (ih hch' hsp').2 (fun c hc => ?_)
        have := hhd c hc
        unfold noTwoSp at this
        by_cases hcs : pyIsSpace c = true
        · exact absurd ⟨ha, hcs⟩ this
        · simpa using hcs
      constructor
      · simp only [collapseAux, ha, if_true, Bool.false_eq_true, if_false, htail]
      · intro hhead
        have := hhead ' ' rfl
        rw [ha] at this
        exact absurd this (by simp)
    · have htail := (ih hch' hsp').1
      constructor
      · simp only [collapseAux, ha, Bool.false_eq_true, if_false, htail]
      · intro _
        simp only [collapseAux, ha, Bool.false_eq_true, if_false, htail]

theorem chain'_dropWhile {R : Char → Char → Prop} (p : Char → Bool) {l : PyStr}
    (h : List.Chain' R l) : List.Chain' R (l.dropWhile p) := by
  induction l with
  | nil => simp
  | cons a as ih =>
    by_cases ha : p a = true
    · rw [List.dropWhile_cons_of_pos ha]
      exact ih (List.chain'_cons'.mp h).2
    · rwa [List.dropWhile_cons_of_neg (by simpa using ha)]

theorem noTwoSp_symm {a b : Char} (h : noTwoSp a b) : noTwoSp b a := by
  intro ⟨h1, h2⟩
  exact h ⟨h2, h1⟩

theorem chain'_reverse_noTwoSp {l : PyStr} (h : List.Chain' noTwoSp l) :
    List.Chain' noTwoSp l.reverse := by
  rw [List.chain'_reverse]
  exact h.imp (fun a b hab => noTwoSp_symm hab)

theorem chain'_pyStrip {l : PyStr} (h : List.Chain' noTwoSp l) :
    List.Chain' noTwoSp (pyStrip l) :=
  chain'_reverse_noTwoSp (chain'_dropWhile _ (chain'_reverse_noTwoSp (chain'_dropWhile _ h)))

theorem mem_pyStrip {l : PyStr} {c : Char} (h : c ∈ pyStrip l) : c ∈ l := by
  unfold pyStrip at h
  rw [List.mem_reverse] at h
  have h1 := (List.dropWhile_sublist (l := (l.dropWhile pyIsSpace).reverse)
    (p := pyIsSpace)).subset h
  rw [List.mem_reverse] at h1
  exact (List.dropWhile_sublist (l := l) (p := pyIsSpace)).subset h1

theorem keepChar_mem_subPunct {u : PyStr} {c : Char} (h : c ∈ subPunct u) :
    keepChar c = true := by
  rcases List.mem_map.mp h with ⟨x, _, hx⟩
  unfold subChar at hx
  by_cases hk : keepChar x = true
  · rw [if_pos hk] at hx
    rw [← hx]
    exact hk
  · rw [if_neg hk] at hx
    rw [← hx]
    decide

theorem keepChar_mem_normalize {s : PyStr} {c : Char}
    (h : c ∈ normalize_text s) : keepChar c = true := by
  unfold normalize_text collapseWs at h
  rcases mem_collapseAux h with h' | h'
  · rw [h']; decide
  · exact keepChar_mem_subPunct h'

theorem lower_fix_mem_normalize {s : PyStr} {c : Char}
    (h : c ∈ normalize_text s) : pyLower c = c := by
  unfold normalize_text collapseWs at h
  rcases mem_collapseAux h with h' | h'
  · rw [h']; decide
  · rcases List.mem_map.mp h' with ⟨x, hx, hxc⟩
    have hxl : pyLower x = x := by
      have hx2 := mem_pyStrip hx
      rcases List.mem_map.mp hx2 with ⟨y, _, hy⟩
      rw [← hy]
      exact pyLower_idem y
    unfold subChar at hxc
    by_cases hk : keepChar x = true
    · rw [if_pos hk] at hxc; rw [← hxc]; exact hxl
    · rw [if_neg hk] at hxc; rw [← hxc]; decide

theorem space_mem_normalize {s : PyStr} {c : Char}
    (h : c ∈ normalize_text s) (hs : pyIsSpace c = true) : c = ' ' :=
  space_mem_collapseAux h hs

theorem chain'_normalize (s : PyStr) : List.Chain' noTwoSp (normalize_text s) :=
  chain'_collapseAux _ false

theorem subChar_fix {c : Char} (h : keepChar c = true) : subChar c = c := by
  simp [subChar, h]

/-- C5 (counterexample): `normalize_text` is not idempotent — the input
`"abc!"` normalizes to `"abc "` (the `!` becomes a space after the strip has
already happened), and normalizing again strips it to `"abc"`. -/
theorem normalize_text_not_idempotent :
    normalize_text (normalize_text (py "abc!")) ≠ normalize_text (py "abc!") ∧
      normalize_text (py "abc!") = py "abc " ∧
      normalize_text (normalize_text (py "abc!")) = py "abc" := by
  refine ⟨?_, by decide, by decide⟩
  decide

/-- C5 (amended): `normalize_text` is idempotent up to a final strip —
for every string `s`, `normalize_text (normalize_text s) =
pyStrip (normalize_text s)`; the second pass changes nothing except
removing the single leading/trailing space that boundary punctuation can
leave behind. -/
theorem normalize_text_idem_upto_strip (s : PyStr) :
    normalize_text (normalize_text s) = pyStrip (normalize_text s) := by
  show collapseWs (subPunct (pyStrip ((normalize_text s).map pyLower))) =
    pyStrip (normalize_text s)
  rw [map_eq_self_of_fix (fun c hc => lower_fix_mem_normalize hc)]
  unfold subPunct
  rw [map_eq_self_of_fix
    (fun c hc => subChar_fix (keepChar_mem_normalize (mem_pyStrip hc)))]
  exact (collapseAux_eq_self _ (chain'_pyStrip (chain'_normalize s))
    (fun c hc hs => space_mem_normalize (mem_pyStrip hc) hs)).1

/-- C4 (counterexample): `normalize_text` performs no accent folding — the
accented spelling `"Jibóia"` normalizes to `"jibóia"`, which differs from
`normalize_text "Jiboia" = "jiboia"`. -/
theorem normalize_text_no_accent_fold :
    normalize_text (py "Jibóia") ≠ normalize_text (py "Jiboia") ∧
      normalize_text (py "Jibóia") = py "jibóia" ∧
      normalize_text (py "Jiboia") = py "jiboia" := by
  refine ⟨?_, by decide, by decide⟩
  decide

/-- C4 (amended): `normalize_text` preserves accented characters instead of
folding them — any lowercase non-whitespace word character (such as `ó`)
normalizes, as a one-character string, to itself. -/
theorem normalize_text_preserves_word_char (c : Char)
    (h1 : isWordChar c = true) (h2 : pyIsSpace c = false) (h3 : pyLower c = c) :
    normalize_text [c] = [c] := by
  unfold normalize_text pyStrip subPunct collapseWs subChar keepChar
  simp [h1, h2, h3, collapseAux]

/-- Witness for C4 (amended) at the accented character `ó`. -/
theorem normalize_text_preserves_word_char_witness :
    isWordChar 'ó' = true ∧ pyIsSpace 'ó' = false ∧ pyLower 'ó' = 'ó' ∧
      normalize_text ['ó'] = ['ó'] :=
  ⟨by decide, by decide, by decide,
    normalize_text_preserves_word_char 'ó' (by decide) (by decide) (by decide)⟩

theorem lcs_le : ∀ (a b : PyStr), lcs a b ≤ a.length ∧ lcs a b ≤ b.length
  | [], b => by simp [lcs]
  | a :: as, [] => by simp [lcs]
  | a :: as, b :: bs => by
    by_cases h : a = b
    · have ih := lcs_le as bs
      simp only [lcs, if_pos h, List.length_cons]
      exact ⟨Nat.succ_le_succ ih.1, Nat.succ_le_succ ih.2⟩
    · have ih1 := lcs_le as (b :: bs)
      have ih2 := lcs_le (a :: as) bs
      simp only [lcs, if_neg h, List.length_cons]
      constructor
      · exact max_le (ih1.1.trans (Nat.le_succ _)) ih2.1
      · exact max_le ih1.2 (ih2.2.trans (Nat.le_succ _))
termination_by a b => a.length + b.length

theorem simQ_le_100 (a b : PyStr) : simQ a b ≤ 100 := by
  unfold simQ
  split_ifs with h
  · exact le_refl _
  · have hlen : 0 < a.length + b.length := by
      cases a with
      | nil =>
        cases b with
        | nil => exact absurd ⟨rfl, rfl⟩ h
        | cons x xs => simp
      | cons x xs => simp [Nat.succ_add]
    have hpos : (0 : ℚ) < (a.length : ℚ) + (b.length : ℚ) := by exact_mod_cast hlen
    rw [div_le_iff₀ hpos]
    have h2 : 2 * lcs a b ≤ a.length + b.length := by
      have hl := lcs_le a b
      omega
    have h2q : ((2 * lcs a b : Nat) : ℚ) ≤ ((a.length : ℚ) + (b.length : ℚ)) := by
      exact_mod_cast h2
    push_cast at h2q
    nlinarith

theorem maxQ_le {l : List ℚ} {M : ℚ} (h0 : 0 ≤ M) (h : ∀ x ∈ l, x ≤ M) :
    maxQ l ≤ M := by
  induction l with
  | nil => simpa [maxQ] using h0
  | cons x xs ih =>
    simp only [maxQ, List.foldr_cons]
    exact max_le (h x (List.mem_cons_self x xs))
      (ih (fun y hy => h y (List.mem_cons_of_mem x hy)))

theorem windowScore_le_100 (s1 s2 : PyStr) : windowScore s1 s2 ≤ 100 := by
  unfold windowScore
  split_ifs
  · norm_num
  · apply maxQ_le (by norm_num)
    intro x hx
    rcases List.mem_append.mp hx with hx' | hx'
    · rcases List.mem_append.mp hx' with hx'' | hx''
      all_goals {
        rcases List.mem_filterMap.mp hx'' with ⟨i, _, hi⟩
        split_ifs at hi
        · rw [← Option.some.injEq _ _ |>.mp hi]
          exact simQ_le_100 _ _
      }
    · rcases List.mem_filterMap.mp hx' with ⟨i, _, hi⟩
      split_ifs at hi
      · rw [← Option.some.injEq _ _ |>.mp hi]
        exact simQ_le_100 _ _

theorem windowSim_le_100 (s1 s2 : PyStr) : windowSim s1 s2 ≤ 100 := by
  unfold windowSim
  split_ifs
  · exact max_le (windowScore_le_100 _ _) (windowScore_le_100 _ _)
  · exact windowScore_le_100 _ _
  · exact windowScore_le_100 _ _

theorem tokenSortSim_le_100 (s1 s2 : PyStr) : tokenSortSim s1 s2 ≤ 100 :=
  simQ_le_100 _ _

theorem one_sub_div_le_one {x y : ℚ} (hx : 0 ≤ x) (hy : 0 ≤ y) :
    1 - x / y ≤ 1 := by
  have := div_nonneg hx hy
  linarith

theorem setScore_le_100 {sectLen abLen baLen dist bonus : ℚ}
    (h1 : 0 ≤ sectLen) (h2 : 0 ≤ abLen) (h3 : 0 ≤ baLen) (h4 : 0 ≤ dist)
    (h5 : 0 ≤ bonus) : setScore sectLen abLen baLen dist bonus ≤ 100 := by
  unfold setScore
  have hr1 := one_sub_div_le_one h4
    (by positivity : (0:ℚ) ≤ (sectLen + bonus + abLen) + (sectLen + bonus + baLen))
  have hr2 := one_sub_div_le_one (by positivity : (0:ℚ) ≤ bonus + abLen)
    (by positivity : (0:ℚ) ≤ sectLen + (sectLen + bonus + abLen))
  have hr3 := one_sub_div_le_one (by positivity : (0:ℚ) ≤ bonus + baLen)
    (by positivity : (0:ℚ) ≤ sectLen + (sectLen + bonus + baLen))
  have hm : max (1 - dist / ((sectLen + bonus + abLen) + (sectLen + bonus + baLen)))
      (max (1 - (bonus + abLen) / (sectLen + (sectLen + bonus + abLen)))
        (1 - (bonus + baLen) / (sectLen + (sectLen + bonus + baLen)))) ≤ 1 :=
    max_le hr1 (max_le hr2 hr3)
  linarith

theorem tokenSetSim_le_100 (s1 s2 : PyStr) : tokenSetSim s1 s2 ≤ 100 := by
  unfold tokenSetSim
  simp only []
  split_ifs with h1 h2 h3
  · norm_num
  · norm_num
  · exact setScore_le_100 (by positivity) (by positivity) (by positivity)
      (by positivity) (by norm_num)
  · exact setScore_le_100 (by positivity) (by positivity) (by positivity)
      (by positivity) (by norm_num)

theorem tokenSim_le_100 (s1 s2 : PyStr) : tokenSim s1 s2 ≤ 100 :=
  max_le (tokenSortSim_le_100 s1 s2) (tokenSetSim_le_100 s1 s2)

theorem windowTokenSim_le_100 (s1 s2 : PyStr) : windowTokenSim s1 s2 ≤ 100 := by
  unfold windowTokenSim
  simp only []
  split_ifs
  · norm_num
  · exact max_le (windowSim_le_100 _ _) (windowSim_le_100 _ _)
  · exact windowSim_le_100 _ _

theorem mul_scale_le_100 {t k : ℚ} (ht : t ≤ 100) (h0 : 0 ≤ k) (h1 : k ≤ 1) :
    t * k ≤ 100 := by nlinarith

theorem wSim_le_100 (s1 s2 : PyStr) : wSim s1 s2 ≤ 100 := by
  unfold wSim
  simp only []
  split_ifs
  · norm_num
  · exact max_le (simQ_le_100 _ _)
      (mul_scale_le_100 (tokenSim_le_100 _ _) (by norm_num) (by norm_num))
  · refine max_le (max_le (simQ_le_100 _ _) ?_) ?_
    · exact mul_scale_le_100 (windowSim_le_100 _ _) (by norm_num) (by norm_num)
    · exact mul_scale_le_100
        (mul_scale_le_100 (windowTokenSim_le_100 _ _) (by norm_num) (by norm_num))
        (by norm_num) (by norm_num)
  · refine max_le (max_le (simQ_le_100 _ _) ?_) ?_
    · exact mul_scale_le_100 (windowSim_le_100 _ _) (by norm_num) (by norm_num)
    · exact mul_scale_le_100
        (mul_scale_le_100 (windowTokenSim_le_100 _ _) (by norm_num) (by norm_num))
        (by norm_num) (by norm_num)

theorem mem_scoreRows {q : PyStr} :
    ∀ {rs : List Row} {i : Nat} {x : Nat × Row × ℚ},
      x ∈ scoreRows q rs i → x.2.1 ∈ rs ∧ x.2.2 = wSim q x.2.1.search := by
  intro rs
  induction rs with
  | nil => intro i x h; simp [scoreRows] at h
  | cons r rest ih =>
    intro i x h
    simp only [scoreRows, List.mem_cons] at h
    rcases h with h | h
    · subst h
      exact ⟨List.mem_cons_self _ _, rfl⟩
    · rcases ih h with ⟨h1, h2⟩
      exact ⟨List.mem_cons_of_mem _ h1, h2⟩

theorem mem_extractTop {q : PyStr} {df : List Row} {p : Row × ℚ}
    (h : p ∈ extractTop q df) : p.1 ∈ df ∧ p.2 = wSim q p.1.search := by
  unfold extractTop at h
  rcases List.mem_map.mp h with ⟨t, ht, htp⟩
  have ht2 : t ∈ List.insertionSort scoreRel (scoreRows q df 0) :=
    List.mem_of_mem_take ht
  rw [List.mem_insertionSort] at ht2
  have hsc := mem_scoreRows ht2
  rw [← htp]
  exact ⟨hsc.1, hsc.2⟩

theorem mem_fuzzyTop {df : List Row} {q : PyStr} {p : Row × ℚ}
    (h : p ∈ fuzzyTop df q) : (75 : ℚ) ≤ p.2 ∧ p.2 ≤ 100 ∧ p.1 ∈ df := by
  unfold fuzzyTop at h
  have h75 := List.of_mem_filter h
  have hm := List.mem_of_mem_filter h
  have he := mem_extractTop hm
  refine ⟨by simpa using h75, ?_, he.1⟩
  rw [he.2]
  exact wSim_le_100 _ _

theorem fuzzyTop_sorted (df : List Row) (q : PyStr) :
    List.Sorted (fun a b : Row × ℚ => b.2 ≤ a.2) (fuzzyTop df q) := by
  have hs : List.Sorted scoreRel (List.insertionSort scoreRel (scoreRows q df 0)) :=
    List.sorted_insertionSort scoreRel _
  have htake : List.Sorted scoreRel
      ((List.insertionSort scoreRel (scoreRows q df 0)).take 5) :=
    List.Pairwise.sublist (List.take_sublist 5 _) hs
  have hmap : List.Sorted (fun a b : Row × ℚ => b.2 ≤ a.2) (extractTop q df) := by
    unfold extractTop
    refine List.Pairwise.map _ (fun a b hab => ?_) htake
    rcases hab with h | ⟨h, _⟩
    · exact le_of_lt h
    · exact le_of_eq h.symm
  exact List.Pairwise.sublist (List.filter_sublist _) hmap

theorem fuzzyTop_length_le_5 (df : List Row) (q : PyStr) :
    (fuzzyTop df q).length ≤ 5 := by
  unfold fuzzyTop extractTop
  refine le_trans (List.length_filter_le _ _) ?_
  rw [List.length_map, List.length_take]
  exact min_le_left _ _

theorem fp_single {df : List Row} {query : PyStr} {r : Row}
    (h : normalize_text query ≠ [])
    (hs : startsRows df (normalize_text query) = [r]) :
    find_product df query = (some r, [(r, (100 : ℚ))]) := by
  unfold find_product
  rw [if_neg h, hs]

theorem fp_multi {df : List Row} {query : PyStr} {a b : Row} {rest : List Row}
    (h : normalize_text query ≠ [])
    (hs : startsRows df (normalize_text query) = a :: b :: rest) :
    find_product df query =
      (none, (a :: b :: rest).map (fun r => (r, (90 : ℚ)))) := by
  unfold find_product
  rw [if_neg h, hs]

theorem fp_fuzzy {df : List Row} {query : PyStr}
    (h : normalize_text query ≠ [])
    (hs : startsRows df (normalize_text query) = []) :
    find_product df query = fuzzyResolve df (normalize_text query) := by
  unfold find_product fuzzyResolve
  rw [if_neg h, hs]

/-- C8: the prefix stage of `find_product` — for every catalog and query
with non-empty normalization, if exactly one row's normalized name starts
with the normalized query the result is that row at score 100, and if two
or more rows qualify the result is no single product with every qualifying
row at score 90 in catalog order. -/
theorem find_product_starts_stage (df : List Row) (query : PyStr)
    (h : normalize_text query ≠ []) :
    (∀ r, startsRows df (normalize_text query) = [r] →
        find_product df query = (some r, [(r, (100 : ℚ))])) ∧
      (2 ≤ (startsRows df (normalize_text query)).length →
        find_product df query =
          (none, (startsRows df (normalize_text query)).map
            (fun r => (r, (90 : ℚ))))) := by
  constructor
  · intro r hr
    exact fp_single h hr
  · intro h2
    rcases hs : startsRows df (normalize_text query) with _ | ⟨a, _ | ⟨b, rest⟩⟩
    · rw [hs] at h2; simp at h2
    · rw [hs] at h2; simp at h2
    · exact fp_multi h hs

/-- Witness for C8 on the spec's own examples: catalog
`["Samambaia", "Suculenta"]` with query `"samamb"` resolves to `Samambaia`
at 100, and catalog `["Jiboia", "Jiboia Verde"]` with query `"jiboia"`
resolves to both rows at 90 in catalog order. -/
theorem find_product_starts_stage_witness :
    (normalize_text (py "samamb") ≠ [] ∧
      startsRows dfPlants (normalize_text (py "samamb")) = [rowSamambaia] ∧
      find_product dfPlants (py "samamb") =
        (some rowSamambaia, [(rowSamambaia, (100 : ℚ))])) ∧
    (normalize_text (py "jiboia") ≠ [] ∧
      2 ≤ (startsRows dfJib (normalize_text (py "jiboia"))).length ∧
      find_product dfJib (py "jiboia") =
        (none, (startsRows dfJib (normalize_text (py "jiboia"))).map
          (fun r => (r, (90 : ℚ))))) :=
  ⟨⟨by decide, by decide,
      (find_product_starts_stage dfPlants (py "samamb") (by decide)).1
        rowSamambaia (by decide)⟩,
    ⟨by decide, by decide,
      (find_product_starts_stage dfJib (py "jiboia") (by decide)).2 (by decide)⟩⟩

/-- C9: the fuzzy stage of `find_product` — when the prefix stage selects
no rows, at most 5 candidates are kept, all kept scores are at least 75 and
at most 100, the kept list is sorted by descending score, rows that all
score below 75 yield no match, one kept row is returned as the product with
its score, and several kept rows are returned as candidates with no single
product. -/
theorem find_product_fuzzy_stage (df : List Row) (query : PyStr)
    (h1 : normalize_text query ≠ [])
    (h2 : startsRows df (normalize_text query) = []) :
    (fuzzyTop df (normalize_text query)).length ≤ 5 ∧
      (∀ p ∈ fuzzyTop df (normalize_text query), (75 : ℚ) ≤ p.2) ∧
      List.Sorted (fun a b : Row × ℚ => b.2 ≤ a.2)
        (fuzzyTop df (normalize_text query)) ∧
      ((∀ r ∈ df, wSim (normalize_text query) r.search < 75) →
        find_product df query = (none, [])) ∧
      (fuzzyTop df (normalize_text query) = [] →
        find_product df query = (none, [])) ∧
      (∀ r s, fuzzyTop df (normalize_text query) = [(r, s)] →
        find_product df query = (some r, [(r, s)])) ∧
      (2 ≤ (fuzzyTop df (normalize_text query)).length →
        find_product df query = (none, fuzzyTop df (normalize_text query))) := by
  refine ⟨fuzzyTop_length_le_5 _ _, fun p hp => (mem_fuzzyTop hp).1,
    fuzzyTop_sorted _ _, ?_, ?_, ?_, ?_⟩
  · intro hall
    have hempty : fuzzyTop df (normalize_text query) = [] := by
      unfold fuzzyTop
      rw [List.filter_eq_nil_iff]
      intro p hp
      have hm := mem_extractTop hp
      have hlt := hall p.1 hm.1
      rw [← hm.2] at hlt
      simpa using not_le.mpr hlt
    rw [fp_fuzzy h1 h2]
    unfold fuzzyResolve
    rw [hempty]
  · intro hempty
    rw [fp_fuzzy h1 h2]
    unfold fuzzyResolve
    rw [hempty]
  · intro r s hrs
    rw [fp_fuzzy h1 h2]
    unfold fuzzyResolve
    rw [hrs]
  · intro hlen
    rw [fp_fuzzy h1 h2]
    unfold fuzzyResolve
    rcases hf : fuzzyTop df (normalize_text query) with _ | ⟨t1, _ | ⟨t2, rest⟩⟩ <;>
      first
        | rfl
        | (exfalso; rw [hf] at hlen; simp at hlen)

/-- Witness for C9: one-row catalog `["abc"]` with query `"zzz"` (prefix
stage empty); every row scores below 75, so the resolver returns no match. -/
theorem find_product_fuzzy_stage_witness :
    normalize_text (py "zzz") ≠ [] ∧
      startsRows dfAbc (normalize_text (py "zzz")) = [] ∧
      ((fuzzyTop dfAbc (normalize_text (py "zzz"))).length ≤ 5 ∧
        (∀ p ∈ fuzzyTop dfAbc (normalize_text (py "zzz")), (75 : ℚ) ≤ p.2) ∧
        List.Sorted (fun a b : Row × ℚ => b.2 ≤ a.2)
          (fuzzyTop dfAbc (normalize_text (py "zzz"))) ∧
        ((∀ r ∈ dfAbc, wSim (normalize_text (py "zzz")) r.search < 75) →
          find_product dfAbc (py "zzz") = (none, [])) ∧
        (fuzzyTop dfAbc (normalize_text (py "zzz")) = [] →
          find_product dfAbc (py "zzz") = (none, [])) ∧
        (∀ r s, fuzzyTop dfAbc (normalize_text (py "zzz")) = [(r, s)] →
          find_product dfAbc (py "zzz") = (some r, [(r, s)])) ∧
        (2 ≤ (fuzzyTop dfAbc (normalize_text (py "zzz"))).length →
          find_product dfAbc (py "zzz") =
            (none, fuzzyTop dfAbc (normalize_text (py "zzz"))))) :=
  ⟨by decide, by decide,
    find_product_fuzzy_stage dfAbc (py "zzz") (by decide) (by decide)⟩

/-- C10: invariant of `find_product` — a product is returned exactly when
the candidate list is a singleton, the product is that candidate's row, and
every candidate score lies in `[75, 100]`. -/
theorem find_product_invariant (df : List Row) (query : PyStr) :
    ((find_product df query).1.isSome ↔ (find_product df query).2.length = 1) ∧
      (∀ r, (find_product df query).1 = some r →
        ∃ s, (find_product df query).2 = [(r, s)]) ∧
      (∀ p ∈ (find_product df query).2, (75 : ℚ) ≤ p.2 ∧ p.2 ≤ 100) := by
  by_cases hq : normalize_text query = []
  · have hfp : find_product df query = (none, []) := by
      unfold find_product
      rw [if_pos hq]
    rw [hfp]
    simp
  · rcases hs : startsRows df (normalize_text query) with _ | ⟨a, _ | ⟨b, rest⟩⟩
    · rw [fp_fuzzy hq hs]
      unfold fuzzyResolve
      rcases hf : fuzzyTop df (normalize_text query) with _ | ⟨t1, _ | ⟨t2, rest2⟩⟩
      · simp
      · have ht1 : t1 ∈ fuzzyTop df (normalize_text query) := by
          rw [hf]
          exact List.mem_singleton_self _
        have hb := mem_fuzzyTop ht1
        refine ⟨by simp, ?_, ?_⟩
        · intro r hr
          simp only [Option.some.injEq] at hr
          refine ⟨t1.2, ?_⟩
          rw [← hr, Prod.mk.eta]
        · intro p hp
          simp only [List.mem_singleton] at hp
          subst hp
          exact ⟨hb.1, hb.2.1⟩
      · refine ⟨by simp, ?_, ?_⟩
        · intro r hr
          simp at hr
        · intro p hp
          have hp2 : p ∈ fuzzyTop df (normalize_text query) := by
            rw [hf]
            exact hp
          have hb := mem_fuzzyTop hp2
          exact ⟨hb.1, hb.2.1⟩
    · rw [fp_single hq hs]
      refine ⟨by simp, ?_, ?_⟩
      · intro r hr
        simp only [Option.some.injEq] at hr
        exact ⟨100, by rw [hr]⟩
      · intro p hp
        simp only [List.mem_singleton] at hp
        subst hp
        norm_num
    · rw [fp_multi hq hs]
      refine ⟨by simp, ?_, ?_⟩
      · intro r hr
        simp at hr
      · intro p hp
        simp only [List.mem_map] at hp
        rcases hp with ⟨r, _, hr⟩
        rw [← hr]
        norm_num

set_option maxRecDepth 8000 in
/-- C1 (counterexample): with the one-row catalog `["Samambaia"]` and query
`"mamb"`, the spec's token-subset stage matches exactly the row (its single
token `mamb` is a substring of `samambaia`), so the claim demands
`SingleMatch` at score 100 — but `find_product` has no such stage and
returns the fuzzy score 90. -/
theorem find_product_token_subset_cex :
    tokenSubsetMatches dfSam (normalize_text (py "mamb")) = [rowSamambaia] ∧
      find_product dfSam (py "mamb") =
        (some rowSamambaia, [(rowSamambaia, (90 : ℚ))]) ∧
      find_product dfSam (py "mamb") ≠
        (some rowSamambaia, [(rowSamambaia, (100 : ℚ))]) := by
  refine ⟨by decide, ?_, ?_⟩
  · with_unfolding_all decide
  · with_unfolding_all decide

/-- C1 (amended): when the prefix stage selects zero rows, `find_product`
proceeds directly to the fuzzy stage — there is no token-subset stage
between them. -/
theorem find_product_no_token_subset_stage (df : List Row) (query : PyStr)
    (h1 : normalize_text query ≠ [])
    (h2 : startsRows df (normalize_text query) = []) :
    find_product df query = fuzzyResolve df (normalize_text query) :=
  fp_fuzzy h1 h2

/-- Witness for C1 (amended) on the catalog `["abc"]` and query `"mamb"`. -/
theorem find_product_no_token_subset_stage_witness :
    normalize_text (py "mamb") ≠ [] ∧
      startsRows dfAbc (normalize_text (py "mamb")) = [] ∧
      find_product dfAbc (py "mamb") =
        fuzzyResolve dfAbc (normalize_text (py "mamb")) :=
  ⟨by decide, by decide,
    find_product_no_token_subset_stage dfAbc (py "mamb") (by decide) (by decide)⟩

/-- C3 (code bug): `handle_message` raises `NameError` on every inbound
message — the debug block at `src/main.py` lines 166-169 dereferences the
local variables `query` and `df` before they are assigned (they are only
bound at lines 176-178), so no message ever reaches a reply. -/
theorem handle_message_always_raises (msg : PyStr) (df : List Row) :
    handle_message msg df = Except.error PyErr.nameError := rfl

theorem eq_some_of_getD {α : Type} {o : Option α} {v d : α}
    (hs : o.isSome = true) (hg : o.getD d = v) : o = some v := by
  cases o with
  | none => simp at hs
  | some x =>
    simp only [Option.getD_some] at hg
    rw [hg]

set_option maxRecDepth 4000 in
/-- C2 (code bug): with the catalog `["Jiboia", "Jiboia Verde"]` and the
message `"jiboia"`, `find_product` returns the ambiguous candidate pair
both scored 90 (gap 0 < 5), yet `handle_message` raises `NameError` from
its debug block, and even the post-debug body replies the no-match text —
the `prod is None` branch at line 213 returns before the disambiguation
check at line 224, which is unreachable because `prod` is non-`None` only
when the candidate list is a singleton. -/
theorem handle_message_ambiguous_cex :
    (find_product dfJib (extract_query (py "jiboia"))).1 = none ∧
      (find_product dfJib (extract_query (py "jiboia"))).2 =
        [(rowJiboia, (90 : ℚ)), (rowJiboiaVerde, (90 : ℚ))] ∧
      handle_message (py "jiboia") dfJib = Except.error PyErr.nameError ∧
      handle_message_body (py "jiboia") dfJib = some noMatchText ∧
      noMatchText ≠
        disambigText [(rowJiboia, (90 : ℚ)), (rowJiboiaVerde, (90 : ℚ))] := by
  refine ⟨by decide, by decide, rfl, ?_, by decide⟩
  exact eq_some_of_getD (d := []) (by with_unfolding_all decide)
    (by with_unfolding_all decide)

set_option maxRecDepth 4000 in
/-- C6 (counterexample): with a one-row catalog cached at time 0 and a
failing refresh at time 100 (TTL expired), `load_catalog` raises the fetch
error instead of serving the stale catalog — the stale rows stay in the
cache state but are not returned. -/
theorem load_catalog_stale_not_served_cex :
    load_catalog (py "u") FetchOutcome.failed 100 ⟨some dfSam, 0⟩ =
      (Except.error LoadErr.fetchFailed, ⟨some dfSam, 0⟩) ∧
      (load_catalog (py "u") FetchOutcome.failed 100 ⟨some dfSam, 0⟩).1 ≠
        Except.ok dfSam := by
  constructor
  · with_unfolding_all decide
  · with_unfolding_all decide

/-- C6 (amended): a load within the TTL window returns the cached catalog
unchanged without consulting the fetch; after expiry a successful fetch
replaces the cache wholesale; a failed refresh raises the fetch error (the
stale catalog is retained in the cache state but not served). -/
theorem load_catalog_cache_behavior (url : PyStr) (fetch : FetchOutcome)
    (now : ℚ) (st : CacheState) (df₀ : List Row) (h1 : st.df = some df₀) :
    (now - st.ts < 60 → load_catalog url fetch now st = (Except.ok df₀, st)) ∧
      (¬(now - st.ts < 60) → url ≠ [] →
        ((∀ rows, fetch = FetchOutcome.ok rows →
            load_catalog url fetch now st =
              (Except.ok (rows.map buildRow),
                ⟨some (rows.map buildRow), now⟩)) ∧
          (fetch = FetchOutcome.failed →
            load_catalog url fetch now st =
              (Except.error LoadErr.fetchFailed, st)))) := by
  constructor
  · intro httl
    unfold load_catalog
    rw [h1]
    simp [httl]
  · intro httl hurl
    constructor
    · intro rows hrows
      unfold load_catalog fetchCatalog
      rw [h1, hrows]
      simp [httl, hurl]
    · intro hfail
      unfold load_catalog fetchCatalog
      rw [h1, hfail]
      simp [httl, hurl]

/-- Witness for C6 (amended): a cached catalog at time 0 is served as-is
at time 10 even though the fetch would fail. -/
theorem load_catalog_cache_behavior_witness :
    (⟨some dfSam, 0⟩ : CacheState).df = some dfSam ∧
      ((10 : ℚ) - (⟨some dfSam, 0⟩ : CacheState).ts < 60) ∧
      load_catalog (py "u") FetchOutcome.failed 10 ⟨some dfSam, 0⟩ =
        (Except.ok dfSam, ⟨some dfSam, 0⟩) :=
  ⟨rfl, by with_unfolding_all decide,
    (load_catalog_cache_behavior (py "u") FetchOutcome.failed 10
        ⟨some dfSam, 0⟩ dfSam rfl).1 (by with_unfolding_all decide)⟩

set_option maxRecDepth 4000 in
/-- C7 (counterexample): the composed reply shows the stored price string
verbatim — `"12,5"` is not reformatted to a two-decimal display, the
literal `"nan"` is shown rather than a placeholder, and an empty price
simply omits the price line. -/
theorem format_price_not_reformatted_cex :
    answerLines rowPrecoComma Intent.PRICE = [py "💰 **Preço:** 12,5"] ∧
      answerLines rowPrecoNan Intent.PRICE = [py "💰 **Preço:** nan"] ∧
      answerLines rowPrecoEmpty Intent.PRICE = [] ∧
      inPy (py "💰 **Preço:** nan")
        (format_product_answer rowPrecoNan Intent.PRICE) = true := by
  refine ⟨by decide, by decide, by decide, by decide⟩

/-- C7 (amended): for the PRICE intent the detail lines are exactly the
price line showing the stripped stored string verbatim (present iff the
stripped price is non-empty — no reformatting, no placeholder) followed by
the pot-size line under the same rule. -/
theorem format_price_verbatim (prod : Row) :
    answerLines prod Intent.PRICE =
      (if pyStrip prod.preco ≠ [] then
        [py "💰 **Preço:** " ++ pyStrip prod.preco] else [])
        ++ (if pyStrip prod.vaso ≠ [] then
          [py "🪴 **Vaso:** " ++ pyStrip prod.vaso] else []) := by
  unfold answerLines
  simp


